import Mathlib

set_option allowUnsafeReducibility true

attribute [semireducible] Rat.mul Rat.add Rat.sub Rat.inv

/-!
Shallow embedding of the scoring core of `src/tubess.py`
(land-parcel recommendation for Bandung).

Conventions of the embedding:
* Python floats are modelled as `ℚ`; the numeric literals of the source
  (`0.40`, `0.5`, `0.7`, …) are exact decimal rationals.
* A pandas `DataFrame` of location rows is a `List Row`; vectorised numpy
  operations (elementwise arithmetic over aligned columns) are modelled as
  a per-row function applied by `List.map`, with the population statistics
  (`min`, `max` over a column) computed once and passed in.
* `df.sort_values(c, ascending=False)` is modelled after pandas
  `nargsort`: an ascending argsort of the column followed by reversal of
  the indexer. The default `kind='quicksort'` leaves the order inside
  tie groups unspecified; the model concretises it as a stable sort
  (numpy's small-array behaviour), and only tie-independent properties
  of the sort are asserted about the program.
* Code that raises (numpy `.min()` on an empty array) is modelled with
  `Except ErrKind`, the error kind being the spec's taxonomy name for
  that failure.
* A pandas `Series` row passed to `analyze_advantages_disadvantages` is a
  structure; the one field read with `row.get(key, default)` (which
  tolerates absence) is an `Option`, the fields read with `row[key]`
  (which would raise when absent) are plain fields.
-/

namespace Tubess

/-- One input row of the locations table, after `read_locations` has
normalised the category columns and coerced the numeric columns. -/
structure Row where
  name : String
  price_per_m2 : ℚ
  flood_risk : String
  crowd_level : String
  proximity_public : String
  rth_percent : ℚ
deriving Repr, DecidableEq

/-- Scoring weights (`WEIGHTS` in the source). -/
def WEIGHTS_price : ℚ := 40/100
/-- Weight of the flood-risk criterion. -/
def WEIGHTS_flood : ℚ := 30/100
/-- Weight of the crowd-level criterion. -/
def WEIGHTS_crowd : ℚ := 15/100
/-- Weight of the proximity criterion. -/
def WEIGHTS_prox : ℚ := 10/100
/-- Weight of the green-space (RTH) criterion. -/
def WEIGHTS_rth : ℚ := 5/100

/-- `FLOOD_MAP = {"low": 1.0, "medium": 0.5, "high": 0.0}`. -/
def FLOOD_MAP (s : String) : Option ℚ :=
  if s = "low" then some 1
  else if s = "medium" then some (5/10)
  else if s = "high" then some 0
  else none

/-- `CROWD_MAP = {"low": 0.0, "medium": 0.5, "high": 1.0}`. -/
def CROWD_MAP (s : String) : Option ℚ :=
  if s = "low" then some 0
  else if s = "medium" then some (5/10)
  else if s = "high" then some 1
  else none

/-- `PROX_MAP = {"low": 0.0, "medium": 0.5, "high": 1.0}`. -/
def PROX_MAP (s : String) : Option ℚ :=
  if s = "low" then some 0
  else if s = "medium" then some (5/10)
  else if s = "high" then some 1
  else none

/-- `RTH_THRESHOLD_HIGH = 25`. -/
def RTH_THRESHOLD_HIGH : ℚ := 25
/-- `RTH_THRESHOLD_LOW = 15`. -/
def RTH_THRESHOLD_LOW : ℚ := 15
/-- `PRICE_SCORE_THRESHOLD = 0.6`. -/
def PRICE_SCORE_THRESHOLD : ℚ := 6/10

/-- `IND_TO_EN`: the bilingual category vocabulary, as a partial map
(`dict.get` with no hit is `none`). -/
def IND_TO_EN (v : String) : Option String :=
  if v = "rendah" then some "low"
  else if v = "sedang" then some "medium"
  else if v = "tinggi" then some "high"
  else if v = "low" then some "low"
  else if v = "medium" then some "medium"
  else if v = "high" then some "high"
  else none

/-- ASCII lower-casing of one character, as Python's `str.lower` acts on
the ASCII range (all category tokens and knowledge-base keys are ASCII). -/
def pyLowerChar (c : Char) : Char :=
  if 65 ≤ c.toNat ∧ c.toNat ≤ 90 then Char.ofNat (c.toNat + 32) else c

/-- Python `str.lower()` on the strings this program handles. -/
def pyLower (s : String) : String := ⟨s.data.map pyLowerChar⟩

/-- The whitespace characters Python `str.strip()` removes here. -/
def isSpaceChar (c : Char) : Bool :=
  c = ' ' || c = '\t' || c = '\n' || c = '\r'

/-- Python `str.strip()`: drop leading and trailing whitespace. -/
def pyStrip (s : String) : String :=
  ⟨((s.data.dropWhile isSpaceChar).reverse.dropWhile isSpaceChar).reverse⟩

/-- Python `s.replace(c, "")` for a single-character pattern (the only
form the source uses): every occurrence of the character is removed. -/
def removeChar (c : Char) (s : String) : String :=
  ⟨s.data.filter fun d => !(d = c)⟩

/-- `starts_with` on character lists, for the substring test below. -/
def startsWithChars : List Char → List Char → Bool
  | _, [] => true
  | [], _ :: _ => false
  | c :: cs, p :: ps => (c = p) && startsWithChars cs ps

/-- Occurrence of `pat` somewhere in the list. -/
def hasSubChars (pat : List Char) : List Char → Bool
  | [] => startsWithChars [] pat
  | c :: cs => startsWithChars (c :: cs) pat || hasSubChars pat cs

/-- Python's substring test `pat in s`. -/
def pyContains (s pat : String) : Bool := hasSubChars pat.data s.data

/-- `map_category` from `read_locations`: `pd.isna(val)` is the `none`
case; otherwise the value is stripped, lower-cased and looked up in
`IND_TO_EN` with default `"medium"`. -/
def map_category (val : Option String) : String :=
  match val with
  | none => "medium"
  | some s => (IND_TO_EN (pyLower (pyStrip s))).getD "medium"

/-- Error kinds of the spec's taxonomy that the embedded core can signal.
`InvalidInput` stands for the `ValueError` numpy raises when
`normalize_price_scores` takes `min`/`max` of an empty column. -/
inductive ErrKind where
  | InvalidInput
deriving Repr, DecidableEq

/-- `normalize_price_scores(df)`: min–max normalisation of the price
column, cheaper is better; uniform `1.0` when all prices are equal;
the empty table makes `prices.min()` raise. -/
def normalize_price_scores (df : List Row) : Except ErrKind (List ℚ) :=
  let prices := df.map fun r => r.price_per_m2
  match prices.min?, prices.max? with
  | some mn, some mx =>
      if mn = mx then .ok (prices.map fun _ => 1)
      else .ok (prices.map fun p => (mx - p) / (mx - mn))
  | _, _ => .error .InvalidInput

/-- A row of the scored table `df2` produced by `compute_scores`: the
input row plus the five criterion scores and the weighted total. -/
structure ScoredRow where
  row : Row
  price_score : ℚ
  flood_score : ℚ
  crowd_score : ℚ
  prox_score : ℚ
  rth_score : ℚ
  score : ℚ
deriving Repr, DecidableEq

/-- The per-row body of `compute_scores`, given the population price and
RTH extremes: the price column is normalised as in
`normalize_price_scores`, the three category columns go through their
maps with `fillna(0.5)`, RTH is min–max normalised (uniform `1.0` when
degenerate), and the final score is the weighted sum. -/
def scoreRow (pmn pmx rmn rmx : ℚ) (r : Row) : ScoredRow :=
  let price_score : ℚ := if pmn = pmx then 1 else (pmx - r.price_per_m2) / (pmx - pmn)
  let flood_score : ℚ := (FLOOD_MAP r.flood_risk).getD (5/10)
  let crowd_score : ℚ := (CROWD_MAP r.crowd_level).getD (5/10)
  let prox_score : ℚ := (PROX_MAP r.proximity_public).getD (5/10)
  let rth_score : ℚ := if rmx ≠ rmn then (r.rth_percent - rmn) / (rmx - rmn) else 1
  { row := r
    price_score := price_score
    flood_score := flood_score
    crowd_score := crowd_score
    prox_score := prox_score
    rth_score := rth_score
    score := WEIGHTS_price * price_score + WEIGHTS_flood * flood_score +
      WEIGHTS_crowd * crowd_score + WEIGHTS_prox * prox_score +
      WEIGHTS_rth * rth_score }

/-- The unsorted scored table `df2` of `compute_scores` (all columns
computed, before `sort_values`). -/
def score_table (df : List Row) : Except ErrKind (List ScoredRow) :=
  let prices := df.map fun r => r.price_per_m2
  let rths := df.map fun r => r.rth_percent
  match prices.min?, prices.max?, rths.min?, rths.max? with
  | some pmn, some pmx, some rmn, some rmx =>
      .ok (df.map (scoreRow pmn pmx rmn rmx))
  | _, _, _, _ => .error .InvalidInput

/-- `df2.sort_values("score", ascending=False)`, following pandas
`nargsort`: an ascending argsort of the key (default `kind='quicksort'`,
whose order within tie groups is unspecified), then the indexer is
reversed. The embedding fixes one concrete tie order — the reverse of a
stable ascending sort, which is what numpy produces in its small-array
insertion-sort regime — but the order of equal keys is not a guarantee
of the program; the general theorems below rely only on sortedness and
permutation, which hold for any correct argsort. -/
def sort_values_desc (l : List ScoredRow) : List ScoredRow :=
  (l.insertionSort (fun a b => a.score ≤ b.score)).reverse

/-- `compute_scores(df)`: the scored table, sorted by final score
descending. -/
def compute_scores (df : List Row) : Except ErrKind (List ScoredRow) :=
  (score_table df).map sort_values_desc

/-- The affordability filter of `main`:
`scored["total_price"] = price_per_m2 * luas;
affordable = scored[scored["total_price"] <= budget]`. -/
def filter_affordable (scored : List ScoredRow) (budget luas : ℚ) : List ScoredRow :=
  scored.filter fun s => s.row.price_per_m2 * luas ≤ budget

/-- `LOCATION_INFO`: the static per-location knowledge base, keyed by the
sanitised location name; each entry is its `kelebihan` (advantages) and
`kekurangan` (disadvantages) lists. -/
def LOCATION_INFO (k : String) : Option (List String × List String) :=
  if k = "arcamanik" then
    some (["Akses jalan mudah", "Harga relatif terjangkau"],
      ["Beberapa titik rawan banjir saat hujan lebat"])
  else if k = "rancasari" then
    some (["Lingkungan tenang", "Dekat fasilitas umum"],
      ["Harga sedikit lebih tinggi"])
  else if k = "panyileukan" then
    some (["Lingkungan relatif tenang", "Harga kompetitif"],
      ["Akses ke pusat kota sedikit lebih jauh"])
  else if k = "mandalajati" then
    some (["Akses transportasi baik", "Banyak fasilitas sekitar"],
      ["Area padat pada jam sibuk"])
  else if k = "cidadap" then
    some (["Udara sejuk, lingkungan hijau", "RTH luas"],
      ["Beberapa area aksesnya tidak terlalu cepat"])
  else none

/-- The row (a pandas `Series`) that `analyze_advantages_disadvantages`
reads. `price_score` is read with `row.get("price_score", 0)`, which
tolerates absence, hence `Option ℚ`; the other columns are read with
`row[...]` and must be present. -/
structure SRow where
  name : String
  price_score : Option ℚ
  flood_risk : String
  crowd_level : String
  proximity_public : String
  rth_percent : ℚ
deriving Repr, DecidableEq

/-- `"harga" in s.lower() or "murah" in s.lower() or "mahal" in s.lower()`:
the price-text test applied to each knowledge-base entry. -/
def mentions_harga (s : String) : Bool :=
  pyContains (pyLower s) "harga" || pyContains (pyLower s) "murah" ||
    pyContains (pyLower s) "mahal"

/-- The knowledge-base merge loop of
`analyze_advantages_disadvantages`: each entry is skipped when its text
mentions price (`harga`/`murah`/`mahal`) or when it is already present,
and otherwise appended at the end. -/
def kb_merge (base : List String) (entries : List String) : List String :=
  entries.foldl
    (fun acc e =>
      if mentions_harga e then acc
      else if e ∈ acc then acc
      else acc ++ [e]) base

/-- The dynamic (score-derived) advantages of
`analyze_advantages_disadvantages`, in the fixed rule order
price, flood, crowd, proximity, RTH; each rule appends at most one
string. -/
def dyn_advantages (row : SRow) : List String :=
  let price_score := row.price_score.getD 0
  (if price_score > 7/10 then ["Harga sangat terjangkau dibanding lokasi lain."]
   else if price_score > PRICE_SCORE_THRESHOLD then
     ["Harga relatif murah dibanding kecamatan lain."]
   else []) ++
  (if row.flood_risk = "low" then ["Area ini memiliki risiko banjir yang rendah."]
   else []) ++
  (if row.crowd_level = "low" then ["Lingkungan sekitar tenang."] else []) ++
  (if row.proximity_public = "high" then ["Dekat dengan fasilitas umum."] else []) ++
  (if row.rth_percent ≥ RTH_THRESHOLD_HIGH then ["RTH luas dan memadai."] else [])

/-- The dynamic (score-derived) disadvantages of
`analyze_advantages_disadvantages`; each `elif` branch of a rule is the
nested `else if`. -/
def dyn_disadvantages (row : SRow) : List String :=
  let price_score := row.price_score.getD 0
  (if price_score > 7/10 then []
   else if price_score > PRICE_SCORE_THRESHOLD then []
   else if price_score < 3/10 then ["Harga cenderung mahal."]
   else []) ++
  (if row.flood_risk = "low" then []
   else if row.flood_risk = "high" then ["Berpotensi terdampak banjir."]
   else []) ++
  (if row.crowd_level = "low" then []
   else if row.crowd_level = "high" then
     ["Keramaian area sekitar tinggi — kurang nyaman."]
   else []) ++
  (if row.proximity_public = "high" then []
   else if row.proximity_public = "low" then ["Akses fasilitas umum terbatas."]
   else []) ++
  (if row.rth_percent ≥ RTH_THRESHOLD_HIGH then []
   else if row.rth_percent < RTH_THRESHOLD_LOW then
     ["RTH rendah — potensi area padat."]
   else [])

/-- The knowledge-base key: `row["name"].strip().lower()
.replace(" ", "").replace("-", "")`. -/
def sanitize_key (name : String) : String :=
  removeChar '-' (removeChar ' ' (pyLower (pyStrip name)))

/-- `analyze_advantages_disadvantages(row)`: the dynamic rule output,
then the knowledge-base entries of the sanitised name merged in (price
text and duplicates skipped; unknown names contribute nothing). -/
def analyze_advantages_disadvantages (row : SRow) : List String × List String :=
  let advantages := dyn_advantages row
  let disadvantages := dyn_disadvantages row
  match LOCATION_INFO (sanitize_key row.name) with
  | none => (advantages, disadvantages)
  | some info => (kb_merge advantages info.1, kb_merge disadvantages info.2)

/-- Decidable equality for `Except`, to evaluate the embedded fallible
functions on concrete inputs. -/
instance {ε α : Type _} [DecidableEq ε] [DecidableEq α] :
    DecidableEq (Except ε α)
  | .error e, .error f => decidable_of_iff (e = f) (by simp)
  | .error _, .ok _ => .isFalse (by simp)
  | .ok _, .error _ => .isFalse (by simp)
  | .ok a, .ok b => decidable_of_iff (a = b) (by simp)

/-- The sort key relation of `sort_values_desc` (ascending on the final
score) is total. -/
instance : IsTotal ScoredRow (fun a b => a.score ≤ b.score) :=
  ⟨fun a b => le_total a.score b.score⟩

/-- The sort key relation of `sort_values_desc` is transitive. -/
instance : IsTrans ScoredRow (fun a b => a.score ≤ b.score) :=
  ⟨fun _ _ _ h h' => le_trans h h'⟩

/-- A pair of identical-attribute records (distinct names only) used to
exhibit the tie behaviour of the sort. -/
def demoRowA : Row := ⟨"A", 1000000, "low", "low", "high", 30⟩
/-- The second record of the tie pair. -/
def demoRowB : Row := ⟨"B", 1000000, "low", "low", "high", 30⟩

/-- A single-record population (degenerate min = max on both continuous
columns) used to instantiate the general theorems. -/
def demoRow : Row := ⟨"Solo", 2000000, "medium", "medium", "medium", 20⟩

/-- The scored row `compute_scores [demoRow]` produces. -/
def demoScored : ScoredRow := scoreRow 2000000 2000000 20 20 demoRow

/-- A pair differing only in crowd level, to evaluate the crowd-level
criterion score on both polarities. -/
def demoCrowdLow : Row := ⟨"L", 1000000, "medium", "low", "medium", 20⟩
/-- The high-crowd partner record. -/
def demoCrowdHigh : Row := ⟨"H", 1000000, "medium", "high", "medium", 20⟩

/-- All advantage strings the dynamic rules can emit, in rule order; the
output of `dyn_advantages` is always a sublist of this list. -/
def master_advantages : List String :=
  ["Harga sangat terjangkau dibanding lokasi lain.",
   "Harga relatif murah dibanding kecamatan lain.",
   "Area ini memiliki risiko banjir yang rendah.",
   "Lingkungan sekitar tenang.",
   "Dekat dengan fasilitas umum.",
   "RTH luas dan memadai."]

/-- All disadvantage strings the dynamic rules can emit, in rule order. -/
def master_disadvantages : List String :=
  ["Harga cenderung mahal.",
   "Berpotensi terdampak banjir.",
   "Keramaian area sekitar tinggi — kurang nyaman.",
   "Akses fasilitas umum terbatas.",
   "RTH rendah — potensi area padat."]

/-- A series with a very low price score (expensive parcel) and neutral
categories, for the price-rule disadvantage branch. -/
def demoCheapless : SRow := ⟨"X", some (1/5), "medium", "medium", "medium", 20⟩

/-- A series whose name has no knowledge-base entry. -/
def demoUnknown : SRow := ⟨"Nowhere", some (1/2), "medium", "medium", "medium", 20⟩

/-- A series whose `price_score` field is absent. -/
def demoNoPrice : SRow := ⟨"Y", none, "medium", "medium", "medium", 20⟩

end Tubess

namespace Tubess

/-- Characterisation of `List.min?` on `ℚ`: the returned value is a
member and a lower bound. -/
theorem min?_spec {l : List ℚ} {m : ℚ} (h : l.min? = some m) :
    m ∈ l ∧ ∀ b ∈ l, m ≤ b := by
  haveI : Std.Antisymm ((· : ℚ) ≤ ·) := ⟨fun h h2 => le_antisymm h h2⟩
  exact (List.min?_eq_some_iff (fun a => le_refl a) (fun a b => min_choice a b)
    (fun a b c => le_min_iff)).mp h

/-- Characterisation of `List.max?` on `ℚ`: the returned value is a
member and an upper bound. -/
theorem max?_spec {l : List ℚ} {m : ℚ} (h : l.max? = some m) :
    m ∈ l ∧ ∀ b ∈ l, b ≤ m := by
  haveI : Std.Antisymm ((· : ℚ) ≤ ·) := ⟨fun h h2 => le_antisymm h h2⟩
  exact (List.max?_eq_some_iff (fun a => le_refl a) (fun a b => max_choice a b)
    (fun a b c => max_le_iff)).mp h

/-- Membership is preserved by the descending sort. -/
theorem mem_sort_values_desc {sr : ScoredRow} {t : List ScoredRow} :
    sr ∈ sort_values_desc t ↔ sr ∈ t := by
  unfold sort_values_desc
  rw [List.mem_reverse]
  exact (List.perm_insertionSort _ t).mem_iff

/-- Inversion of `score_table`: a successful run fixes the four
population extremes and maps every row through `scoreRow`. -/
theorem score_table_eq (df : List Row) (t : List ScoredRow)
    (h : score_table df = .ok t) :
    ∃ pmn pmx rmn rmx,
      (df.map fun r => r.price_per_m2).min? = some pmn ∧
      (df.map fun r => r.price_per_m2).max? = some pmx ∧
      (df.map fun r => r.rth_percent).min? = some rmn ∧
      (df.map fun r => r.rth_percent).max? = some rmx ∧
      t = df.map (scoreRow pmn pmx rmn rmx) := by
  unfold score_table at h
  simp only [] at h
  cases hpmn : (df.map fun r => r.price_per_m2).min? with
  | none =>
    rw [hpmn] at h
    cases (df.map fun r => r.price_per_m2).max? <;>
      cases (df.map fun r => r.rth_percent).min? <;>
      cases (df.map fun r => r.rth_percent).max? <;> simp at h
  | some pmn =>
    cases hpmx : (df.map fun r => r.price_per_m2).max? with
    | none =>
      rw [hpmn, hpmx] at h
      cases (df.map fun r => r.rth_percent).min? <;>
        cases (df.map fun r => r.rth_percent).max? <;> simp at h
    | some pmx =>
      cases hrmn : (df.map fun r => r.rth_percent).min? with
      | none =>
        rw [hpmn, hpmx, hrmn] at h
        cases (df.map fun r => r.rth_percent).max? <;> simp at h
      | some rmn =>
        cases hrmx : (df.map fun r => r.rth_percent).max? with
        | none => rw [hpmn, hpmx, hrmn, hrmx] at h; simp at h
        | some rmx =>
          rw [hpmn, hpmx, hrmn, hrmx] at h
          simp only [] at h
          exact ⟨pmn, pmx, rmn, rmx, rfl, rfl, rfl, rfl,
            ((Except.ok.injEq _ _).mp h).symm⟩

/-- Every criterion score `scoreRow` produces lies in `[0, 1]`, given
that the row's continuous values lie between the population extremes. -/
theorem scoreRow_bounds (pmn pmx rmn rmx : ℚ) (r : Row)
    (hp1 : pmn ≤ r.price_per_m2) (hp2 : r.price_per_m2 ≤ pmx)
    (hr1 : rmn ≤ r.rth_percent) (hr2 : r.rth_percent ≤ rmx) :
    (0 ≤ (scoreRow pmn pmx rmn rmx r).price_score ∧
      (scoreRow pmn pmx rmn rmx r).price_score ≤ 1) ∧
    (0 ≤ (scoreRow pmn pmx rmn rmx r).flood_score ∧
      (scoreRow pmn pmx rmn rmx r).flood_score ≤ 1) ∧
    (0 ≤ (scoreRow pmn pmx rmn rmx r).crowd_score ∧
      (scoreRow pmn pmx rmn rmx r).crowd_score ≤ 1) ∧
    (0 ≤ (scoreRow pmn pmx rmn rmx r).prox_score ∧
      (scoreRow pmn pmx rmn rmx r).prox_score ≤ 1) ∧
    (0 ≤ (scoreRow pmn pmx rmn rmx r).rth_score ∧
      (scoreRow pmn pmx rmn rmx r).rth_score ≤ 1) := by
  refine ⟨?_, ?_, ?_, ?_, ?_⟩
  · simp only [scoreRow]
    split_ifs with h
    · norm_num
    · have hlt : pmn < pmx := lt_of_le_of_ne (hp1.trans hp2) h
      constructor
      · exact div_nonneg (by linarith) (by linarith)
      · rw [div_le_one (by linarith)]
        linarith
  · simp only [scoreRow, FLOOD_MAP]
    split_ifs <;> norm_num
  · simp only [scoreRow, CROWD_MAP]
    split_ifs <;> norm_num
  · simp only [scoreRow, PROX_MAP]
    split_ifs <;> norm_num
  · simp only [scoreRow]
    split_ifs with h
    · have hlt : rmn < rmx := lt_of_le_of_ne (hr1.trans hr2) (Ne.symm h)
      constructor
      · exact div_nonneg (by linarith) (by linarith)
      · rw [div_le_one (by linarith)]
        linarith
    · norm_num

end Tubess

namespace Tubess

/-- One step of the knowledge-base merge loop. -/
theorem kb_merge_cons (base : List String) (e : String) (es : List String) :
    kb_merge base (e :: es) =
      kb_merge (if mentions_harga e then base
        else if e ∈ base then base else base ++ [e]) es := rfl

/-- The merge loop only appends: the result extends its base list. -/
theorem kb_merge_extends (entries base : List String) :
    ∃ extra, kb_merge base entries = base ++ extra := by
  induction entries generalizing base with
  | nil => exact ⟨[], by simp [kb_merge]⟩
  | cons e es ih =>
    rw [kb_merge_cons]
    split
    · exact ih base
    · split
      · exact ih base
      · obtain ⟨extra, hx⟩ := ih (base ++ [e])
        exact ⟨e :: extra, by rw [hx, List.append_assoc]; rfl⟩

/-- Anything in the merged list came from the base, or is an entry whose
text does not mention price. -/
theorem mem_kb_merge_cases {s : String} (entries base : List String)
    (h : s ∈ kb_merge base entries) :
    s ∈ base ∨ (s ∈ entries ∧ mentions_harga s = false) := by
  induction entries generalizing base with
  | nil => exact .inl (by simpa [kb_merge] using h)
  | cons e es ih =>
    rw [kb_merge_cons] at h
    by_cases h1 : mentions_harga e = true
    · rw [if_pos h1] at h
      rcases ih base h with h' | ⟨h2, h3⟩
      · exact .inl h'
      · exact .inr ⟨List.mem_cons_of_mem _ h2, h3⟩
    · rw [if_neg h1] at h
      by_cases h2 : e ∈ base
      · rw [if_pos h2] at h
        rcases ih base h with h' | ⟨h3, h4⟩
        · exact .inl h'
        · exact .inr ⟨List.mem_cons_of_mem _ h3, h4⟩
      · rw [if_neg h2] at h
        rcases ih (base ++ [e]) h with h' | ⟨h3, h4⟩
        · rcases List.mem_append.mp h' with h'' | h''
          · exact .inl h''
          · have hse : s = e := by simpa using h''
            subst hse
            exact .inr ⟨List.mem_cons_self _ _, by simpa using h1⟩
        · exact .inr ⟨List.mem_cons_of_mem _ h3, h4⟩

/-- The merge loop preserves freedom from duplicates (it skips entries
already present). -/
theorem kb_merge_nodup (entries : List String) {base : List String}
    (hb : base.Nodup) : (kb_merge base entries).Nodup := by
  induction entries generalizing base with
  | nil => simpa [kb_merge] using hb
  | cons e es ih =>
    rw [kb_merge_cons]
    split
    · exact ih hb
    · split
      · exact ih hb
      · rename_i h2
        apply ih
        rw [List.nodup_append]
        exact ⟨hb, List.nodup_singleton _, by
          intro x hx hx'
          exact h2 (by simpa using (by simpa using hx' : x = e) ▸ hx)⟩

/-- The dynamic advantages are always a sublist of the fixed rule
messages, in rule order. -/
theorem dyn_advantages_sublist (row : SRow) :
    List.Sublist (dyn_advantages row) master_advantages := by
  unfold dyn_advantages master_advantages
  have h1 : List.Sublist
      (if row.price_score.getD 0 > 7/10 then
        ["Harga sangat terjangkau dibanding lokasi lain."]
       else if row.price_score.getD 0 > PRICE_SCORE_THRESHOLD then
        ["Harga relatif murah dibanding kecamatan lain."]
       else [])
      ["Harga sangat terjangkau dibanding lokasi lain.",
       "Harga relatif murah dibanding kecamatan lain."] := by
    split
    · decide
    · split <;> decide
  have h2 : List.Sublist
      (if row.flood_risk = "low" then
        ["Area ini memiliki risiko banjir yang rendah."] else [])
      ["Area ini memiliki risiko banjir yang rendah."] := by split <;> decide
  have h3 : List.Sublist
      (if row.crowd_level = "low" then ["Lingkungan sekitar tenang."] else [])
      ["Lingkungan sekitar tenang."] := by split <;> decide
  have h4 : List.Sublist
      (if row.proximity_public = "high" then
        ["Dekat dengan fasilitas umum."] else [])
      ["Dekat dengan fasilitas umum."] := by split <;> decide
  have h5 : List.Sublist
      (if row.rth_percent ≥ RTH_THRESHOLD_HIGH then
        ["RTH luas dan memadai."] else [])
      ["RTH luas dan memadai."] := by split <;> decide
  simpa using (((h1.append h2).append h3).append h4).append h5

/-- The dynamic disadvantages are always a sublist of the fixed rule
messages, in rule order. -/
theorem dyn_disadvantages_sublist (row : SRow) :
    List.Sublist (dyn_disadvantages row) master_disadvantages := by
  unfold dyn_disadvantages master_disadvantages
  have h1 : List.Sublist
      (if row.price_score.getD 0 > 7/10 then []
       else if row.price_score.getD 0 > PRICE_SCORE_THRESHOLD then []
       else if row.price_score.getD 0 < 3/10 then ["Harga cenderung mahal."]
       else [])
      ["Harga cenderung mahal."] := by
    split
    · decide
    · split
      · decide
      · split <;> decide
  have h2 : List.Sublist
      (if row.flood_risk = "low" then []
       else if row.flood_risk = "high" then ["Berpotensi terdampak banjir."]
       else [])
      ["Berpotensi terdampak banjir."] := by
    split
    · decide
    · split <;> decide
  have h3 : List.Sublist
      (if row.crowd_level = "low" then []
       else if row.crowd_level = "high" then
        ["Keramaian area sekitar tinggi — kurang nyaman."] else [])
      ["Keramaian area sekitar tinggi — kurang nyaman."] := by
    split
    · decide
    · split <;> decide
  have h4 : List.Sublist
      (if row.proximity_public = "high" then []
       else if row.proximity_public = "low" then
        ["Akses fasilitas umum terbatas."] else [])
      ["Akses fasilitas umum terbatas."] := by
    split
    · decide
    · split <;> decide
  have h5 : List.Sublist
      (if row.rth_percent ≥ RTH_THRESHOLD_HIGH then []
       else if row.rth_percent < RTH_THRESHOLD_LOW then
        ["RTH rendah — potensi area padat."] else [])
      ["RTH rendah — potensi area padat."] := by
    split
    · decide
    · split <;> decide
  simpa using (((h1.append h2).append h3).append h4).append h5

/-- The dynamic advantages contain no duplicates. -/
theorem dyn_advantages_nodup (row : SRow) : (dyn_advantages row).Nodup :=
  (dyn_advantages_sublist row).nodup (by decide)

/-- The dynamic disadvantages contain no duplicates. -/
theorem dyn_disadvantages_nodup (row : SRow) : (dyn_disadvantages row).Nodup :=
  (dyn_disadvantages_sublist row).nodup (by decide)

end Tubess

namespace Tubess

/-- When the sanitised name has no knowledge-base entry, the insight
generator returns exactly the dynamic rule output. -/
theorem analyze_eq_none (row : SRow)
    (h : LOCATION_INFO (sanitize_key row.name) = none) :
    analyze_advantages_disadvantages row =
      (dyn_advantages row, dyn_disadvantages row) := by
  unfold analyze_advantages_disadvantages
  rw [h]

/-- When the sanitised name has a knowledge-base entry, the insight
generator merges it into the dynamic rule output. -/
theorem analyze_eq_some (row : SRow) (info : List String × List String)
    (h : LOCATION_INFO (sanitize_key row.name) = some info) :
    analyze_advantages_disadvantages row =
      (kb_merge (dyn_advantages row) info.1,
       kb_merge (dyn_disadvantages row) info.2) := by
  unfold analyze_advantages_disadvantages
  rw [h]

/-- A dynamically derived advantage survives the knowledge-base merge. -/
theorem dyn_adv_mem_analyze (row : SRow) {s : String}
    (hs : s ∈ dyn_advantages row) :
    s ∈ (analyze_advantages_disadvantages row).1 := by
  cases hinfo : LOCATION_INFO (sanitize_key row.name) with
  | none => rw [analyze_eq_none row hinfo]; exact hs
  | some info =>
    rw [analyze_eq_some row info hinfo]
    obtain ⟨extra, hx⟩ := kb_merge_extends info.1 (dyn_advantages row)
    simp only [hx]
    exact List.mem_append_left _ hs

/-- A dynamically derived disadvantage survives the knowledge-base
merge. -/
theorem dyn_dis_mem_analyze (row : SRow) {s : String}
    (hs : s ∈ dyn_disadvantages row) :
    s ∈ (analyze_advantages_disadvantages row).2 := by
  cases hinfo : LOCATION_INFO (sanitize_key row.name) with
  | none => rw [analyze_eq_none row hinfo]; exact hs
  | some info =>
    rw [analyze_eq_some row info hinfo]
    obtain ⟨extra, hx⟩ := kb_merge_extends info.2 (dyn_disadvantages row)
    simp only [hx]
    exact List.mem_append_left _ hs

/-- A price-mentioning advantage in the final output must come from the
dynamic rules: the knowledge-base merge never adds price text. -/
theorem analyze_adv_mem_harga (row : SRow) {s : String}
    (hm : mentions_harga s = true)
    (hs : s ∈ (analyze_advantages_disadvantages row).1) :
    s ∈ dyn_advantages row := by
  cases hinfo : LOCATION_INFO (sanitize_key row.name) with
  | none => rw [analyze_eq_none row hinfo] at hs; exact hs
  | some info =>
    rw [analyze_eq_some row info hinfo] at hs
    rcases mem_kb_merge_cases info.1 _ hs with h | ⟨_, hfalse⟩
    · exact h
    · rw [hm] at hfalse; cases hfalse

/-- A price-mentioning disadvantage in the final output must come from
the dynamic rules. -/
theorem analyze_dis_mem_harga (row : SRow) {s : String}
    (hm : mentions_harga s = true)
    (hs : s ∈ (analyze_advantages_disadvantages row).2) :
    s ∈ dyn_disadvantages row := by
  cases hinfo : LOCATION_INFO (sanitize_key row.name) with
  | none => rw [analyze_eq_none row hinfo] at hs; exact hs
  | some info =>
    rw [analyze_eq_some row info hinfo] at hs
    rcases mem_kb_merge_cases info.2 _ hs with h | ⟨_, hfalse⟩
    · exact h
    · rw [hm] at hfalse; cases hfalse

/-- The head of the advantage list is the head of the dynamic rules'
output (the merge only appends). -/
theorem analyze_adv_head (row : SRow) {x : String} {rest : List String}
    (h : dyn_advantages row = x :: rest) :
    (analyze_advantages_disadvantages row).1.head? = some x := by
  cases hinfo : LOCATION_INFO (sanitize_key row.name) with
  | none => rw [analyze_eq_none row hinfo]; simp [h]
  | some info =>
    rw [analyze_eq_some row info hinfo]
    obtain ⟨extra, hx⟩ := kb_merge_extends info.1 (dyn_advantages row)
    rw [h] at hx
    rw [h, hx]
    rfl

/-- The head of the disadvantage list is the head of the dynamic rules'
output. -/
theorem analyze_dis_head (row : SRow) {x : String} {rest : List String}
    (h : dyn_disadvantages row = x :: rest) :
    (analyze_advantages_disadvantages row).2.head? = some x := by
  cases hinfo : LOCATION_INFO (sanitize_key row.name) with
  | none => rw [analyze_eq_none row hinfo]; simp [h]
  | some info =>
    rw [analyze_eq_some row info hinfo]
    obtain ⟨extra, hx⟩ := kb_merge_extends info.2 (dyn_disadvantages row)
    rw [h] at hx
    rw [h, hx]
    rfl

set_option maxHeartbeats 1000000 in
/-- The strong-affordability advantage appears in the dynamic rules
exactly when the price score exceeds `0.7`. -/
theorem strong_mem_dyn_iff (row : SRow) :
    "Harga sangat terjangkau dibanding lokasi lain." ∈ dyn_advantages row ↔
      row.price_score.getD 0 > 7/10 := by
  unfold dyn_advantages PRICE_SCORE_THRESHOLD
  simp only []
  split_ifs <;> simp_all

set_option maxHeartbeats 1000000 in
/-- The mild-affordability advantage appears in the dynamic rules exactly
when the price score is in `(0.6, 0.7]`. -/
theorem mild_mem_dyn_iff (row : SRow) :
    "Harga relatif murah dibanding kecamatan lain." ∈ dyn_advantages row ↔
      (¬row.price_score.getD 0 > 7/10 ∧ row.price_score.getD 0 > 6/10) := by
  unfold dyn_advantages PRICE_SCORE_THRESHOLD
  simp only []
  split_ifs <;> simp_all

set_option maxHeartbeats 1000000 in
/-- The expensive-price disadvantage appears in the dynamic rules exactly
when the price score is below `0.3`. -/
theorem dis_mem_dyn_iff (row : SRow) :
    "Harga cenderung mahal." ∈ dyn_disadvantages row ↔
      row.price_score.getD 0 < 3/10 := by
  unfold dyn_disadvantages PRICE_SCORE_THRESHOLD
  simp only []
  split_ifs with h1 h2 h3 <;> simp_all <;> linarith

/-- Shape of the dynamic advantages when the strong-price rule fires. -/
theorem dyn_adv_strong_head (row : SRow)
    (h : row.price_score.getD 0 > 7/10) :
    ∃ rest, dyn_advantages row =
      "Harga sangat terjangkau dibanding lokasi lain." :: rest := by
  unfold dyn_advantages
  simp only []
  rw [if_pos h]
  exact ⟨_, rfl⟩

/-- Shape of the dynamic advantages when the mild-price rule fires. -/
theorem dyn_adv_mild_head (row : SRow)
    (h1 : ¬row.price_score.getD 0 > 7/10)
    (h2 : row.price_score.getD 0 > 6/10) :
    ∃ rest, dyn_advantages row =
      "Harga relatif murah dibanding kecamatan lain." :: rest := by
  unfold dyn_advantages PRICE_SCORE_THRESHOLD
  simp only []
  rw [if_neg h1, if_pos h2]
  exact ⟨_, rfl⟩

/-- Shape of the dynamic disadvantages when the expensive-price rule
fires. -/
theorem dyn_dis_price_head (row : SRow)
    (h : row.price_score.getD 0 < 3/10) :
    ∃ rest, dyn_disadvantages row = "Harga cenderung mahal." :: rest := by
  have h1 : ¬row.price_score.getD 0 > 7/10 := by intro h'; linarith
  have h2 : ¬row.price_score.getD 0 > PRICE_SCORE_THRESHOLD := by
    intro h'
    rw [PRICE_SCORE_THRESHOLD] at h'
    linarith
  unfold dyn_disadvantages
  simp only []
  rw [if_neg h1, if_neg h2, if_pos h]
  exact ⟨_, rfl⟩

end Tubess

namespace Tubess

/-- C1: for every non-empty record set, each scored record's final score
equals `0.40·price_score + 0.30·flood_score + 0.15·crowd_score +
0.10·prox_score + 0.05·rth_score`, and this final score lies in
`[0, 1]`. -/
theorem final_scores_weighted_in_unit (df : List Row) (l : List ScoredRow)
    (h : compute_scores df = .ok l) :
    ∀ sr ∈ l,
      sr.score = 40/100 * sr.price_score + 30/100 * sr.flood_score +
        15/100 * sr.crowd_score + 10/100 * sr.prox_score +
        5/100 * sr.rth_score ∧
      0 ≤ sr.score ∧ sr.score ≤ 1 := by
  unfold compute_scores at h
  cases hst : score_table df with
  | error e => rw [hst] at h; simp [Except.map] at h
  | ok t =>
    rw [hst] at h
    simp only [Except.map] at h
    obtain rfl : sort_values_desc t = l := (Except.ok.injEq _ _).mp h
    obtain ⟨pmn, pmx, rmn, rmx, hpmn, hpmx, hrmn, hrmx, rfl⟩ :=
      score_table_eq df t hst
    intro sr hsr
    rw [mem_sort_values_desc] at hsr
    obtain ⟨r, hr, rfl⟩ := List.mem_map.mp hsr
    have hb := scoreRow_bounds pmn pmx rmn rmx r
      ((min?_spec hpmn).2 _ (List.mem_map_of_mem _ hr))
      ((max?_spec hpmx).2 _ (List.mem_map_of_mem _ hr))
      ((min?_spec hrmn).2 _ (List.mem_map_of_mem _ hr))
      ((max?_spec hrmx).2 _ (List.mem_map_of_mem _ hr))
    obtain ⟨⟨p0, p1⟩, ⟨f0, f1⟩, ⟨c0, c1⟩, ⟨x0, x1⟩, ⟨t0, t1⟩⟩ := hb
    have hsc : (scoreRow pmn pmx rmn rmx r).score =
        40/100 * (scoreRow pmn pmx rmn rmx r).price_score +
        30/100 * (scoreRow pmn pmx rmn rmx r).flood_score +
        15/100 * (scoreRow pmn pmx rmn rmx r).crowd_score +
        10/100 * (scoreRow pmn pmx rmn rmx r).prox_score +
        5/100 * (scoreRow pmn pmx rmn rmx r).rth_score := rfl
    refine ⟨hsc, ?_, ?_⟩
    · rw [hsc]; linarith
    · rw [hsc]; linarith

/-- C1 witness: the general theorem applied to the one-record population
`[demoRow]`, whose scored row is `demoScored`. -/
theorem final_scores_weighted_in_unit_witness :
    demoScored.score = 40/100 * demoScored.price_score +
      30/100 * demoScored.flood_score + 15/100 * demoScored.crowd_score +
      10/100 * demoScored.prox_score + 5/100 * demoScored.rth_score ∧
    0 ≤ demoScored.score ∧ demoScored.score ≤ 1 :=
  final_scores_weighted_in_unit [demoRow] [demoScored] (by decide)
    demoScored (by decide)

/-- C2: the code's crowd map evaluated at the failing inputs. The claim
says low crowd yields the highest crowd score (low 1.0, medium 0.5,
high 0.0); `CROWD_MAP` in the code scores low 0.0, medium 0.5, high 1.0,
so of two otherwise-identical records the quiet one gets the lowest
crowd score and sorts below the crowded one, contradicting the code's
own caption (`low → skor lebih tinggi`) and its insight rule that a low
crowd level is an advantage. -/
theorem crowd_map_scores_low_as_zero :
    (CROWD_MAP "low").getD (5/10) = 0 ∧
    (CROWD_MAP "medium").getD (5/10) = 5/10 ∧
    (CROWD_MAP "high").getD (5/10) = 1 ∧
    Except.map (fun l => l.map fun s => (s.row.name, s.crowd_score))
      (compute_scores [demoCrowdLow, demoCrowdHigh]) =
      .ok [("H", 1), ("L", 0)] := by decide

/-- C3 counterexample: two records with identical attributes (hence equal
final scores `17/20`), given in input order `A, B`, come out of the
aggregator as `B, A` — equal-score records do not keep their input
order. -/
theorem ranking_ties_counterexample :
    Except.map (fun l => l.map fun s => (s.row.name, s.score))
      (compute_scores [demoRowA, demoRowB]) =
      .ok [("B", 17/20), ("A", 17/20)] := by decide

/-- C3 amended: the aggregator output is sorted by final score in
non-increasing order and is a permutation of the scored table; the
relative order of records with equal final scores is not guaranteed to
be the input order (the counterexample shows a two-record tie returned
reversed), and no particular tie order is asserted. -/
theorem compute_scores_sorted_desc (df : List Row) (t l : List ScoredRow)
    (ht : score_table df = .ok t) (hl : compute_scores df = .ok l) :
    List.Sorted (fun a b : ScoredRow => b.score ≤ a.score) l ∧
    l.Perm t := by
  unfold compute_scores at hl
  rw [ht] at hl
  simp only [Except.map] at hl
  obtain rfl : sort_values_desc t = l := (Except.ok.injEq _ _).mp hl
  refine ⟨?_, ?_⟩
  · unfold sort_values_desc
    have hs := List.sorted_insertionSort
      (fun a b : ScoredRow => a.score ≤ b.score) t
    exact List.pairwise_reverse.mpr hs
  · exact (List.reverse_perm _).trans (List.perm_insertionSort _ t)

/-- C3 witness: the amended theorem applied to the one-record
population. -/
theorem compute_scores_sorted_desc_witness :
    List.Sorted (fun a b : ScoredRow => b.score ≤ a.score) [demoScored] :=
  (compute_scores_sorted_desc [demoRow] [demoScored] [demoScored]
    (by decide) (by decide)).1

/-- C4: on a successful run over a non-empty record set, with `mn`/`mx`
the population's price extremes, every record's price score is
`(mx - price) / (mx - mn)` when `mn ≠ mx`, and `1.0` for every record
when `mn = mx`. -/
theorem normalize_price_scores_minmax (df : List Row) (l : List ℚ)
    (mn mx : ℚ)
    (hmn : (df.map fun r => r.price_per_m2).min? = some mn)
    (hmx : (df.map fun r => r.price_per_m2).max? = some mx)
    (h : normalize_price_scores df = .ok l) :
    (∀ r ∈ df, mn ≤ r.price_per_m2 ∧ r.price_per_m2 ≤ mx) ∧
    (mn ≠ mx → l = df.map fun r => (mx - r.price_per_m2) / (mx - mn)) ∧
    (mn = mx → l = df.map fun _ => (1 : ℚ)) := by
  unfold normalize_price_scores at h
  simp only [] at h
  rw [hmn, hmx] at h
  simp only [] at h
  refine ⟨?_, ?_, ?_⟩
  · intro r hr
    exact ⟨(min?_spec hmn).2 _ (List.mem_map_of_mem _ hr),
      (max?_spec hmx).2 _ (List.mem_map_of_mem _ hr)⟩
  · intro hne
    rw [if_neg hne] at h
    have := (Except.ok.injEq _ _).mp h
    rw [← this, List.map_map]
    rfl
  · intro heq
    rw [if_pos heq] at h
    have := (Except.ok.injEq _ _).mp h
    rw [← this, List.map_map]
    rfl

/-- C4 witness: a two-record population with prices `1000000` and
`2000000` gets price scores `1` and `0` by the min–max formula. -/
theorem normalize_price_scores_minmax_witness :
    [(1 : ℚ), 0] = [demoRowA, demoRow].map
      (fun r => ((2000000 : ℚ) - r.price_per_m2) / (2000000 - 1000000)) :=
  (normalize_price_scores_minmax [demoRowA, demoRow] [1, 0] 1000000 2000000
    (by decide) (by decide) (by decide)).2.1 (by decide)

/-- C5: the empty record set makes the price normalisation — and with it
the whole scoring pass — fail with the `InvalidInput` error kind; the
failure is confined to that pass's `Except` result. -/
theorem empty_records_invalid_input :
    normalize_price_scores [] = .error .InvalidInput ∧
      compute_scores [] = .error .InvalidInput := ⟨rfl, rfl⟩

/-- C6: the affordability filter keeps exactly the scored records with
`price_per_m2 × luas ≤ budget` (boundary inclusive), and the result is a
sublist of the input, hence in the same relative order. -/
theorem filter_affordable_spec (scored : List ScoredRow) (budget luas : ℚ) :
    List.Sublist (filter_affordable scored budget luas) scored ∧
    (∀ s ∈ filter_affordable scored budget luas,
      s.row.price_per_m2 * luas ≤ budget) ∧
    (∀ s ∈ scored, s.row.price_per_m2 * luas ≤ budget →
      s ∈ filter_affordable scored budget luas) := by
  refine ⟨List.filter_sublist _, ?_, ?_⟩
  · intro s hs
    have := List.of_mem_filter hs
    simpa using this
  · intro s hs hle
    exact List.mem_filter.mpr ⟨hs, by simpa using hle⟩

/-- C6 witness: a record with total price `2·10^8` survives the filter
with budget `10^9` and area `100`. -/
theorem filter_affordable_spec_witness :
    demoScored ∈ filter_affordable [demoScored] 1000000000 100 :=
  (filter_affordable_spec [demoScored] 1000000000 100).2.2 demoScored
    (by decide) (by decide)

/-- C7: the price rule is evaluated first and with these thresholds: a
price score above `0.7` puts the strong-affordability advantage at the
head of the advantages; else above `0.6` puts the mild-affordability
advantage at the head; a price score below `0.3` puts the expensive
disadvantage at the head of the disadvantages; and each of the three
price statements occurs in the output exactly under its threshold
condition (so none of them appears when `0.3 ≤ score ≤ 0.6`). -/
theorem price_rule_first_and_thresholds (row : SRow) :
    (row.price_score.getD 0 > 7/10 →
      (analyze_advantages_disadvantages row).1.head? =
        some "Harga sangat terjangkau dibanding lokasi lain.") ∧
    (¬row.price_score.getD 0 > 7/10 → row.price_score.getD 0 > 6/10 →
      (analyze_advantages_disadvantages row).1.head? =
        some "Harga relatif murah dibanding kecamatan lain.") ∧
    (row.price_score.getD 0 < 3/10 →
      (analyze_advantages_disadvantages row).2.head? =
        some "Harga cenderung mahal.") ∧
    ("Harga sangat terjangkau dibanding lokasi lain." ∈
        (analyze_advantages_disadvantages row).1 ↔
      row.price_score.getD 0 > 7/10) ∧
    ("Harga relatif murah dibanding kecamatan lain." ∈
        (analyze_advantages_disadvantages row).1 ↔
      (¬row.price_score.getD 0 > 7/10 ∧ row.price_score.getD 0 > 6/10)) ∧
    ("Harga cenderung mahal." ∈ (analyze_advantages_disadvantages row).2 ↔
      row.price_score.getD 0 < 3/10) := by
  refine ⟨?_, ?_, ?_, ?_, ?_, ?_⟩
  · intro h
    obtain ⟨rest, hd⟩ := dyn_adv_strong_head row h
    exact analyze_adv_head row hd
  · intro h1 h2
    obtain ⟨rest, hd⟩ := dyn_adv_mild_head row h1 h2
    exact analyze_adv_head row hd
  · intro h
    obtain ⟨rest, hd⟩ := dyn_dis_price_head row h
    exact analyze_dis_head row hd
  · constructor
    · intro hs
      exact (strong_mem_dyn_iff row).mp (analyze_adv_mem_harga row (by decide) hs)
    · intro h
      exact dyn_adv_mem_analyze row ((strong_mem_dyn_iff row).mpr h)
  · constructor
    · intro hs
      exact (mild_mem_dyn_iff row).mp (analyze_adv_mem_harga row (by decide) hs)
    · intro h
      exact dyn_adv_mem_analyze row ((mild_mem_dyn_iff row).mpr h)
  · constructor
    · intro hs
      exact (dis_mem_dyn_iff row).mp (analyze_dis_mem_harga row (by decide) hs)
    · intro h
      exact dyn_dis_mem_analyze row ((dis_mem_dyn_iff row).mpr h)

/-- C7 witness: a row with price score `0.2` gets the expensive
disadvantage first. -/
theorem price_rule_first_and_thresholds_witness :
    (analyze_advantages_disadvantages demoCheapless).2.head? =
      some "Harga cenderung mahal." :=
  (price_rule_first_and_thresholds demoCheapless).2.2.1 (by decide)

/-- C8: the insight generator's advantage and disadvantage lists are free
of duplicates; any price-mentioning string in them comes from the
dynamic rules (knowledge-base entries with price text are never
appended); and a name with no knowledge-base entry contributes no extra
entries — the output is exactly the dynamic rule output, with no
error. -/
theorem insight_lists_clean (row : SRow) :
    (analyze_advantages_disadvantages row).1.Nodup ∧
    (analyze_advantages_disadvantages row).2.Nodup ∧
    (∀ s ∈ (analyze_advantages_disadvantages row).1,
      mentions_harga s = true → s ∈ dyn_advantages row) ∧
    (∀ s ∈ (analyze_advantages_disadvantages row).2,
      mentions_harga s = true → s ∈ dyn_disadvantages row) ∧
    (LOCATION_INFO (sanitize_key row.name) = none →
      analyze_advantages_disadvantages row =
        (dyn_advantages row, dyn_disadvantages row)) := by
  refine ⟨?_, ?_, fun s hs hm => analyze_adv_mem_harga row hm hs,
    fun s hs hm => analyze_dis_mem_harga row hm hs, analyze_eq_none row⟩
  · cases hinfo : LOCATION_INFO (sanitize_key row.name) with
    | none => rw [analyze_eq_none row hinfo]; exact dyn_advantages_nodup row
    | some info =>
      rw [analyze_eq_some row info hinfo]
      exact kb_merge_nodup _ (dyn_advantages_nodup row)
  · cases hinfo : LOCATION_INFO (sanitize_key row.name) with
    | none => rw [analyze_eq_none row hinfo]; exact dyn_disadvantages_nodup row
    | some info =>
      rw [analyze_eq_some row info hinfo]
      exact kb_merge_nodup _ (dyn_disadvantages_nodup row)

/-- C8 witness: a name unknown to the knowledge base yields exactly the
dynamic rule output. -/
theorem insight_lists_clean_witness :
    analyze_advantages_disadvantages demoUnknown =
      (dyn_advantages demoUnknown, dyn_disadvantages demoUnknown) :=
  (insight_lists_clean demoUnknown).2.2.2.2 (by decide)

/-- C9: the category normaliser is total: every input yields one of
`low`, `medium`, `high`; a missing value yields `"medium"`; and any
value whose stripped, lower-cased form is outside the vocabulary yields
`"medium"`. -/
theorem map_category_total (val : Option String) :
    map_category val ∈ (["low", "medium", "high"] : List String) ∧
    (val = none → map_category val = "medium") ∧
    (∀ s, val = some s → IND_TO_EN (pyLower (pyStrip s)) = none →
      map_category val = "medium") := by
  refine ⟨?_, ?_, ?_⟩
  · cases val with
    | none => simp [map_category]
    | some s =>
      simp only [map_category]
      unfold IND_TO_EN
      repeat' split
      all_goals simp
  · rintro rfl; rfl
  · rintro s rfl hn
    simp [map_category, hn]

/-- C9 witness: unicode garbage and a missing value both normalise to
`"medium"`. -/
theorem map_category_total_witness :
    map_category (some "☺ garbage") = "medium" ∧
      map_category none = "medium" :=
  ⟨(map_category_total (some "☺ garbage")).2.2 _ rfl (by decide),
   (map_category_total none).2.1 rfl⟩

/-- C10: a row with no `price_score` field is treated as having price
score `0` — the analysis equals the analysis of the same row with
`price_score = 0`, no error is raised, and the expensive-price
disadvantage fires since `0 < 0.3`. -/
theorem missing_price_score_treated_as_zero (row : SRow)
    (h : row.price_score = none) :
    analyze_advantages_disadvantages row =
      analyze_advantages_disadvantages
        { name := row.name, price_score := some 0, flood_risk := row.flood_risk,
          crowd_level := row.crowd_level,
          proximity_public := row.proximity_public,
          rth_percent := row.rth_percent } ∧
    "Harga cenderung mahal." ∈ (analyze_advantages_disadvantages row).2 := by
  constructor
  · simp [analyze_advantages_disadvantages, dyn_advantages,
      dyn_disadvantages, h]
  · have h0 : row.price_score.getD 0 < 3/10 := by rw [h]; norm_num
    obtain ⟨rest, hd⟩ := dyn_dis_price_head row h0
    exact dyn_dis_mem_analyze row (hd ▸ List.mem_cons_self _ _)

/-- C10 witness: the concrete row `demoNoPrice` (absent price score)
receives the expensive-price disadvantage. -/
theorem missing_price_score_treated_as_zero_witness :
    "Harga cenderung mahal." ∈
      (analyze_advantages_disadvantages demoNoPrice).2 :=
  (missing_price_score_treated_as_zero demoNoPrice rfl).2

end Tubess
